import Mathlib

/-!
Shallow embedding of the ConnectTool distributed IP-allocation and
forwarding plane: the IP negotiator (`ip_negotiator.cpp`), the heartbeat /
lease manager (`heartbeat_manager.cpp`), the route manager
(`vpn_route_manager.cpp`), and the control-message dispatch of
`steam_vpn_bridge.cpp` (the ISteamNetworkingMessages version).

Machine integers (`uint32_t`) are modelled as `Nat` with explicit
`% 2 ^ 32` / `% 2 ^ 24` where C wraparound matters; `&` / `|` / shifts on
IPv4 addresses are `Nat.land` / `Nat.lor` / `Nat.shiftLeft` (`~m` on
`uint32_t` becomes `4294967295 - m`); timestamps (`int64_t` milliseconds)
are `Int`.  `CSteamID` is a `Nat`; a `NodeID` (`std::array<uint8_t, 32>`)
is a `List Nat` of length 32.  Message payloads carry host-order values:
the C++ code stores them with `htonl` and every handler reads them back
with `ntohl`, a round trip that is the identity.  Send / broadcast
callbacks are modelled as always installed (the bridge installs them at
`start()` before any traffic): each handler returns the updated state
together with the list of messages it emitted, in emission order.
-/

namespace ConnectTool

/-- Models `PROBE_TIMEOUT_MS` from `vpn_protocol.h`: probe window (ms). -/
def PROBE_TIMEOUT_MS : Int := 500

/-- Models `HEARTBEAT_EXPIRY_MS` from `vpn_protocol.h`: heartbeat staleness threshold (ms). -/
def HEARTBEAT_EXPIRY_MS : Int := 180000

/-- Models `LEASE_EXPIRY_MS` from `vpn_protocol.h`: lease eviction threshold (ms). -/
def LEASE_EXPIRY_MS : Int := 360000

/-- Models `NODE_ID_SIZE` from `vpn_protocol.h`. -/
def NODE_ID_SIZE : Nat := 32

/-- Models `NodeIdentity::compare`: lexicographic bytewise comparison, MSB first.
The C++ loop walks indices `0 .. NODE_ID_SIZE-1` of two equal-length
arrays; here the simultaneous walk is structural recursion on the lists. -/
def nodeCompare : List Nat → List Nat → Int
  | a :: as, b :: bs =>
    if a < b then -1
    else if b < a then 1
    else nodeCompare as bs
  | _, _ => 0

/-- Models `NodeIdentity::hasPriority(a, b) = compare(a, b) > 0`. -/
def hasPriority (a b : List Nat) : Bool := nodeCompare a b > 0

/-- Models `NegotiationState` from `ip_negotiator.h`. -/
inductive NState where
  | IDLE
  | PROBING
  | STABLE
deriving DecidableEq, Repr

/-- Models `ConflictInfo` from `ip_negotiator.h`. -/
structure ConflictInfoL where
  nodeId : List Nat
  lastHeartbeatMs : Int
  senderSteamID : Nat
deriving DecidableEq, Repr

/-- A message handed to the send (unicast) or broadcast callback.  The
`ROUTE_UPDATE` broadcast payload (the serialized routing table) is not
inspected by any claim and is left abstract. -/
inductive SentMsg where
  | probeRequestB (ip : Nat) (nid : List Nat)
  | probeResponse (target : Nat) (ip : Nat) (nid : List Nat) (hbMs : Int)
  | addressAnnounceB (ip : Nat) (nid : List Nat)
  | addressAnnounceTo (target : Nat) (ip : Nat) (nid : List Nat)
  | forcedRelease (target : Nat) (ip : Nat) (winner : List Nat)
  | routeUpdateB
deriving DecidableEq, Repr

/-- The mutable fields of `IpNegotiator` (configuration fields included). -/
structure NegSt where
  localNodeId : List Nat
  localSteamID : Nat
  localIP : Nat
  baseIP : Nat
  subnetMask : Nat
  state : NState
  candidateIP : Nat
  probeOffset : Nat
  probeStartMs : Int
  collectedConflicts : List ConflictInfoL
  usedIPs : List Nat
deriving DecidableEq, Repr

/-- The low 24 bits of the Node ID as assembled in
`IpNegotiator::generateCandidateIP`:
`nodeId[31] | nodeId[30] << 8 | nodeId[29] << 16`. -/
def lo24 (nid : List Nat) : Nat :=
  nid.getD (NODE_ID_SIZE - 1) 0 |||
    (nid.getD (NODE_ID_SIZE - 2) 0 <<< 8) |||
    (nid.getD (NODE_ID_SIZE - 3) 0 <<< 16)

/-- Models `maxHosts` as computed inside `generateCandidateIP` /
`findNextAvailableIP`: `hostMask - 1` on `uint32_t` (wrapping when
`hostMask == 0`), then forced to `1` when zero. -/
def maxHostsOf (subnetMask : Nat) : Nat :=
  let hostMask := 4294967295 - subnetMask
  let m := (hostMask + 4294967295) % 4294967296
  if m = 0 then 1 else m

/-- Models `IpNegotiator::generateCandidateIP`.  `(hash + offset) & 0x00FFFFFF`
on `uint32_t` equals `(hash + offset) % 2 ^ 24`. -/
def generateCandidateIP (nid : List Nat) (baseIP subnetMask offset : Nat) : Nat :=
  let hash := (lo24 nid + offset) % 16777216
  let hostPart := hash % maxHostsOf subnetMask + 1
  (baseIP &&& subnetMask) ||| hostPart

/-- The host-part advance of the scan loop in
`IpNegotiator::findNextAvailableIP`: `hostPart++` then wrap to `1` when
`hostPart >= hostMask`. -/
def wrapHost (hostMask hp : Nat) : Nat :=
  if hostMask ≤ hp + 1 then 1 else hp + 1

/-- The `while (usedIPs_.count(potentialIP) && attempts < maxHosts)` loop
of `findNextAvailableIP`; `fuel` is `maxHosts - attempts`. -/
def findLoop (used : List Nat) (netBase hostMask : Nat) : Nat → Nat → Nat
  | hp, 0 => netBase ||| hp
  | hp, fuel + 1 =>
    if (netBase ||| hp) ∈ used then
      findLoop used netBase hostMask (wrapHost hostMask hp) fuel
    else netBase ||| hp

/-- Models `IpNegotiator::findNextAvailableIP`. -/
def findNextAvailableIP (used : List Nat) (baseIP subnetMask startIP : Nat) : Nat :=
  let hostMask := 4294967295 - subnetMask
  let maxHosts := maxHostsOf subnetMask
  let hp0 := startIP &&& hostMask
  let hp := if hp0 = 0 ∨ hostMask ≤ hp0 then 1 else hp0
  findLoop used (baseIP &&& subnetMask) hostMask hp maxHosts

/-- Models `IpNegotiator::startNegotiation`: clear the collected conflicts, pick
the candidate, enter `PROBING`, broadcast the probe, record the probe
start time. -/
def startNegotiation (st : NegSt) (nowMs : Int) : NegSt × List SentMsg :=
  let st := { st with collectedConflicts := [] }
  let cand0 := generateCandidateIP st.localNodeId st.baseIP st.subnetMask st.probeOffset
  let cand := findNextAvailableIP st.usedIPs st.baseIP st.subnetMask cand0
  let st := { st with candidateIP := cand, state := NState.PROBING, probeStartMs := nowMs }
  (st, [SentMsg.probeRequestB cand st.localNodeId])

/-- The conflict loop of `IpNegotiator::checkTimeout`: returns
`(canClaim, nodesToForceRelease)`.  A conflict whose heartbeat age is at
least `HEARTBEAT_EXPIRY_MS` is skipped (`continue`); an active conflict
is either out-prioritized (collect its sender) or wins (`canClaim =
false`, `break`). -/
def processConflicts (localId : List Nat) (nowMs : Int) : List ConflictInfoL → Bool × List Nat
  | [] => (true, [])
  | c :: rest =>
    if HEARTBEAT_EXPIRY_MS ≤ nowMs - c.lastHeartbeatMs then
      processConflicts localId nowMs rest
    else if hasPriority localId c.nodeId then
      let r := processConflicts localId nowMs rest
      (r.1, c.senderSteamID :: r.2)
    else (false, [])

/-- Models `IpNegotiator::checkTimeout`.  The success callback fired on the
`canClaim` branch belongs to the bridge and is outside this state. -/
def checkTimeout (st : NegSt) (nowMs : Int) : NegSt × List SentMsg :=
  if st.state ≠ NState.PROBING then (st, [])
  else if nowMs - st.probeStartMs < PROBE_TIMEOUT_MS then (st, [])
  else
    let conflicts := st.collectedConflicts
    let st := { st with collectedConflicts := [] }
    let r := processConflicts st.localNodeId nowMs conflicts
    if r.1 then
      let relMsgs := r.2.map fun sid => SentMsg.forcedRelease sid st.candidateIP st.localNodeId
      let st := { st with state := NState.STABLE, localIP := st.candidateIP }
      (st, relMsgs ++ [SentMsg.addressAnnounceB st.localIP st.localNodeId])
    else
      startNegotiation { st with probeOffset := st.probeOffset + 1 } nowMs

/-- Models `IpNegotiator::handleProbeRequest` (payload already decoded;
`reqIP = ntohl(request.ipAddress)`). -/
def handleProbeRequest (st : NegSt) (reqIP : Nat) (reqNid : List Nat) (sender : Nat)
    (nowMs : Int) : NegSt × List SentMsg :=
  if st.state = NState.STABLE ∧ reqIP = st.localIP then
    (st, [SentMsg.probeResponse sender reqIP st.localNodeId nowMs])
  else if st.state = NState.PROBING ∧ reqIP = st.candidateIP then
    if hasPriority st.localNodeId reqNid then
      (st, [SentMsg.probeResponse sender reqIP st.localNodeId nowMs])
    else
      startNegotiation { st with probeOffset := st.probeOffset + 1 } nowMs
  else (st, [])

/-- Models `IpNegotiator::handleProbeResponse`: while probing the matching
candidate, append the conflict report (`push_back`). -/
def handleProbeResponse (st : NegSt) (respIP : Nat) (respNid : List Nat) (respHbMs : Int)
    (sender : Nat) : NegSt × List SentMsg :=
  if st.state ≠ NState.PROBING then (st, [])
  else if respIP ≠ st.candidateIP then (st, [])
  else
    ({ st with collectedConflicts :=
        st.collectedConflicts ++ [⟨respNid, respHbMs, sender⟩] }, [])

/-- Models `IpNegotiator::markIPUsed` (`std::set::insert`). -/
def markIPUsed (st : NegSt) (ip : Nat) : NegSt :=
  if ip ∈ st.usedIPs then st else { st with usedIPs := ip :: st.usedIPs }

/-- Models `IpNegotiator::markIPUnused` (`std::set::erase`). -/
def markIPUnused (st : NegSt) (ip : Nat) : NegSt :=
  { st with usedIPs := st.usedIPs.filter (· ≠ ip) }

/-- Models `IpNegotiator::handleAddressAnnounce`. -/
def handleAddressAnnounce (st : NegSt) (annIP : Nat) (annNid : List Nat) (peer : Nat)
    (nowMs : Int) : NegSt × List SentMsg :=
  if annIP = st.localIP ∧ st.state = NState.STABLE then
    if ¬ hasPriority st.localNodeId annNid then
      startNegotiation { st with probeOffset := st.probeOffset + 1 } nowMs
    else
      (st, [SentMsg.forcedRelease peer annIP st.localNodeId])
  else
    (markIPUsed st annIP, [])

/-- Models `IpNegotiator::handleForcedRelease`. -/
def handleForcedRelease (st : NegSt) (relIP : Nat) (winner : List Nat) (sender : Nat)
    (nowMs : Int) : NegSt × List SentMsg :=
  let shouldRelease :=
    if relIP = st.localIP ∧ st.state = NState.STABLE then
      ¬ hasPriority st.localNodeId winner
    else if relIP = st.candidateIP ∧ st.state = NState.PROBING then
      ¬ hasPriority st.localNodeId winner
    else False
  if shouldRelease then
    startNegotiation { st with probeOffset := st.probeOffset + 1, state := NState.IDLE } nowMs
  else (st, [])

/-- Models `RouteEntry` from `vpn_protocol.h`. -/
structure RouteEntryL where
  steamID : Nat
  ipAddress : Nat
  name : String
  isLocal : Bool
  nodeId : List Nat
deriving DecidableEq, Repr

/-- The guarded `std::map<uint32_t, RouteEntry>` of `VpnRouteManager`,
modelled by its lookup function. -/
abbrev RouteTable : Type := Nat → Option RouteEntryL

/-- Models `VpnRouteManager::updateRoute`: erase every entry with the same
`steamID` at a different key, then insert at `ipAddress`
(`entry.isLocal = (steamId == SteamUser()->GetSteamID())`). -/
def updateRoute (rt : RouteTable) (mySteamID : Nat) (nodeId : List Nat) (steamId ip : Nat)
    (name : String) : RouteTable :=
  fun k =>
    if k = ip then some ⟨steamId, ip, name, steamId = mySteamID, nodeId⟩
    else
      match rt k with
      | some e => if e.steamID = steamId then none else some e
      | none => none

/-- One 12-byte record step of `VpnRouteManager::handleRouteUpdate`:
skip the local peer's records, skip records whose IP is already routed,
insert in-subnet records via `updateRoute` (`gen` models
`NodeIdentity::generate`, `names` models `GetFriendPersonaName`). -/
def routeStep (gen : Nat → List Nat) (names : Nat → String)
    (mySteamID myBaseIP mySubnetMask : Nat) (rt : RouteTable) (r : Nat × Nat) : RouteTable :=
  if r.1 = mySteamID then rt
  else if (rt r.2).isSome then rt
  else if r.2 &&& mySubnetMask = myBaseIP &&& mySubnetMask then
    updateRoute rt mySteamID (gen r.1) r.1 r.2 (names r.1)
  else rt

/-- Models `VpnRouteManager::handleRouteUpdate`, at the level of the already
chunked `{u64 steamID, u32 ipAddress}` record sequence (the C++ loop
reads consecutive 12-byte records and ignores a trailing fragment). -/
def handleRouteUpdate (gen : Nat → List Nat) (names : Nat → String)
    (mySteamID myBaseIP mySubnetMask : Nat) (rt : RouteTable)
    (recs : List (Nat × Nat)) : RouteTable :=
  recs.foldl (routeStep gen names mySteamID myBaseIP mySubnetMask) rt

/-- Models `NodeInfo` from `vpn_protocol.h` (the `steady_clock` time point is a
millisecond timestamp). -/
structure NodeInfoL where
  nodeId : List Nat
  steamId : Nat
  ipAddress : Nat
  lastHeartbeatMs : Int
  name : String
  isLocal : Bool
deriving DecidableEq, Repr

/-- Models `NodeInfo::isLeaseExpired`: `now - lastHeartbeat >= LEASE_EXPIRY_MS`. -/
def leaseExpired (nowMs : Int) (info : NodeInfoL) : Bool :=
  LEASE_EXPIRY_MS ≤ nowMs - info.lastHeartbeatMs

/-- The eviction condition of `HeartbeatManager::checkExpiredLeases`:
`!it->second.isLocal && it->second.isLeaseExpired()`. -/
def shouldEvict (nowMs : Int) (info : NodeInfoL) : Bool :=
  !info.isLocal && leaseExpired nowMs info

/-- The node table and IP index of `HeartbeatManager`.  The
`std::map<NodeID, NodeInfo>` is an association list (iteration order is
the list order); `ipToNodeId_` is its lookup function. -/
structure HbState where
  nodeTable : List (List Nat × NodeInfoL)
  ipToNodeId : Nat → Option (List Nat)

/-- The eviction sweep of `HeartbeatManager::checkExpiredLeases`: walk
the table, erase (and record) every entry that is non-local with an
expired lease, erase its `ipToNodeId_` binding.  Returns the surviving
table, the updated IP index, and the `(nodeId, ip)` pairs later handed to
the expiry callback, in iteration order. -/
def expireGo (nowMs : Int) :
    List (List Nat × NodeInfoL) → (Nat → Option (List Nat)) →
      List (List Nat × NodeInfoL) × (Nat → Option (List Nat)) × List (List Nat × Nat)
  | [], ipMap => ([], ipMap, [])
  | (nid, info) :: rest, ipMap =>
    if shouldEvict nowMs info then
      let r := expireGo nowMs rest fun ip =>
        if ip = info.ipAddress then none else ipMap ip
      (r.1, r.2.1, (nid, info.ipAddress) :: r.2.2)
    else
      let r := expireGo nowMs rest ipMap
      ((nid, info) :: r.1, r.2.1, r.2.2)

/-- Models `HeartbeatManager::checkExpiredLeases`. -/
def checkExpiredLeases (nowMs : Int) (st : HbState) : HbState × List (List Nat × Nat) :=
  let r := expireGo nowMs st.nodeTable st.ipToNodeId
  (⟨r.1, r.2.1⟩, r.2.2)

/-- Models `std::map::find` on the node table. -/
def lookupNode (t : List (List Nat × NodeInfoL)) (k : List Nat) : Option NodeInfoL :=
  (t.find? fun p => p.1 == k).map (·.2)

/-- Models `HeartbeatManager::handleHeartbeat`: refresh a known node's
timestamp, otherwise create a `NodeInfo` and index its IP. -/
def hbHandleHeartbeat (st : HbState) (hbIP : Nat) (hbNid : List Nat) (peer : Nat)
    (peerName : String) (nowMs : Int) : HbState :=
  match lookupNode st.nodeTable hbNid with
  | some _ =>
    { st with nodeTable := st.nodeTable.map fun p =>
        if p.1 == hbNid then (p.1, { p.2 with lastHeartbeatMs := nowMs }) else p }
  | none =>
    { nodeTable := st.nodeTable ++ [(hbNid, ⟨hbNid, peer, hbIP, nowMs, peerName, false⟩)],
      ipToNodeId := fun ip => if ip = hbIP then some hbNid else st.ipToNodeId ip }

/-- Models `VpnUtils::extractDestIP`: length and version check, then the
big-endian word at byte offsets 16..19 (`memcpy` + `ntohl`). -/
def extractDestIP (packet : List Nat) : Nat :=
  if packet.length < 20 then 0
  else if (packet.getD 0 0 >>> 4) &&& 15 ≠ 4 then 0
  else
    (packet.getD 16 0 <<< 24) ||| (packet.getD 17 0 <<< 16) |||
      (packet.getD 18 0 <<< 8) ||| packet.getD 19 0

/-- Models `VpnUtils::isBroadcastAddress`: limited broadcast, the subnet's
directed broadcast `(base & mask) | ~mask`, or Class-D multicast. -/
def isBroadcastAddress (ip baseIP subnetMask : Nat) : Bool :=
  if ip = 4294967295 then true
  else if ip = ((baseIP &&& subnetMask) ||| (4294967295 - subnetMask)) then true
  else
    let firstOctet := (ip >>> 24) &&& 255
    if 224 ≤ firstOctet ∧ firstOctet ≤ 239 then true else false

/-- The effect of the `IP_PACKET` fast path of
`SteamVpnBridge::handleVpnMessage`: deliver to TUN, relay to exactly one
peer, or do nothing. -/
inductive IpAction where
  | deliverTun (pkt : List Nat)
  | forward (target : Nat) (payload : List Nat)
  | drop
deriving DecidableEq, Repr

/-- Models `sizeof(VpnPacketWrapper)` — the 32-byte sender NodeID prefix. -/
def WRAPPER_SIZE : Nat := 32

/-- The `IP_PACKET` branch of `SteamVpnBridge::handleVpnMessage` (TUN
device open, as whenever the bridge runs): strip the wrapper, extract the
destination, deliver locally / relay to a non-local route that is not the
sender / otherwise nothing.  A relay re-sends the same `payload`
unreliably (`sendVpnMessage(..., reliable = false)`). -/
def handleIpPacket (localIP baseIP subnetMask : Nat) (rt : RouteTable) (sender : Nat)
    (payload : List Nat) : IpAction :=
  if payload.length ≤ WRAPPER_SIZE then IpAction.drop
  else
    let ipPacket := payload.drop WRAPPER_SIZE
    let destIP := extractDestIP ipPacket
    if destIP = localIP ∨ isBroadcastAddress destIP baseIP subnetMask then
      IpAction.deliverTun ipPacket
    else
      match rt destIP with
      | some e =>
        if e.isLocal = false ∧ e.steamID ≠ sender then IpAction.forward e.steamID payload
        else IpAction.drop
      | none => IpAction.drop

/-- The composed bridge state: negotiator, heartbeat manager, routing
table (`steam_vpn_bridge.h`). -/
structure BridgeSt where
  neg : NegSt
  hb : HbState
  rt : RouteTable

/-- The bridge-side `VpnRouteManager::updateRoute` call: the route-added
callback installed in `SteamVpnBridge::start` marks the IP used in the
negotiator. -/
def bridgeUpdateRoute (st : BridgeSt) (nid : List Nat) (sid ip : Nat) (name : String) :
    BridgeSt :=
  { st with
    rt := updateRoute st.rt st.neg.localSteamID nid sid ip name,
    neg := markIPUsed st.neg ip }

/-- The `ADDRESS_ANNOUNCE` case of `SteamVpnBridge::handleVpnMessage`:
remember whether the route is new, run the negotiator handler, upsert the
route (marking the IP used via the callback), and re-broadcast the table
only for a new route. -/
def dispatchAddressAnnounce (st : BridgeSt) (annIP : Nat) (annNid : List Nat) (sender : Nat)
    (peerName : String) (nowMs : Int) : BridgeSt × List SentMsg :=
  let isNewRoute := (st.rt annIP).isNone
  let r := handleAddressAnnounce st.neg annIP annNid sender nowMs
  let st := bridgeUpdateRoute { st with neg := r.1 } annNid sender annIP peerName
  (st, r.2 ++ if isNewRoute then [SentMsg.routeUpdateB] else [])

/-- The `HEARTBEAT` case of `SteamVpnBridge::handleVpnMessage`: only
`HeartbeatManager::handleHeartbeat` runs. -/
def dispatchHeartbeat (st : BridgeSt) (hbIP : Nat) (hbNid : List Nat) (sender : Nat)
    (peerName : String) (nowMs : Int) : BridgeSt × List SentMsg :=
  ({ st with hb := hbHandleHeartbeat st.hb hbIP hbNid sender peerName nowMs }, [])

/-- The `PROBE_RESPONSE` case of `SteamVpnBridge::handleVpnMessage`: only
`IpNegotiator::handleProbeResponse` runs. -/
def dispatchProbeResponse (st : BridgeSt) (respIP : Nat) (respNid : List Nat)
    (respHbMs : Int) (sender : Nat) : BridgeSt × List SentMsg :=
  let r := handleProbeResponse st.neg respIP respNid respHbMs sender
  ({ st with neg := r.1 }, r.2)

/-- One record step of the `ROUTE_UPDATE` case as seen from the bridge:
like `routeStep`, but an insertion also marks the IP used through the
route-added callback. -/
def bridgeRouteStep (gen : Nat → List Nat) (names : Nat → String)
    (myBaseIP mySubnetMask : Nat) (st : BridgeSt) (r : Nat × Nat) : BridgeSt :=
  if r.1 = st.neg.localSteamID then st
  else if (st.rt r.2).isSome then st
  else if r.2 &&& mySubnetMask = myBaseIP &&& mySubnetMask then
    bridgeUpdateRoute st (gen r.1) r.1 r.2 (names r.1)
  else st

/-- The `ROUTE_UPDATE` case of `SteamVpnBridge::handleVpnMessage`: it
only calls `VpnRouteManager::handleRouteUpdate` and emits nothing. -/
def dispatchRouteUpdate (gen : Nat → List Nat) (names : Nat → String)
    (myBaseIP mySubnetMask : Nat) (st : BridgeSt) (recs : List (Nat × Nat)) :
    BridgeSt × List SentMsg :=
  (recs.foldl (bridgeRouteStep gen names myBaseIP mySubnetMask) st, [])

/-! ### Helper lemmas -/

theorem expireGo_table (nowMs : Int) :
    ∀ (t : List (List Nat × NodeInfoL)) (ipMap : Nat → Option (List Nat)),
      (expireGo nowMs t ipMap).1 = t.filter fun p => !shouldEvict nowMs p.2
  | [], _ => rfl
  | (nid, info) :: rest, ipMap => by
    by_cases h : shouldEvict nowMs info
    · simp [expireGo, h, expireGo_table nowMs rest]
    · simp [expireGo, h, expireGo_table nowMs rest]

theorem expireGo_expired (nowMs : Int) :
    ∀ (t : List (List Nat × NodeInfoL)) (ipMap : Nat → Option (List Nat)),
      (expireGo nowMs t ipMap).2.2
        = (t.filter fun p => shouldEvict nowMs p.2).map fun p => (p.1, p.2.ipAddress)
  | [], _ => rfl
  | (nid, info) :: rest, ipMap => by
    by_cases h : shouldEvict nowMs info
    · simp [expireGo, h, expireGo_expired nowMs rest]
    · simp [expireGo, h, expireGo_expired nowMs rest]

/-! ### Claims -/

/-- Claim C10: the heartbeat manager's lease scan never evicts the local
node: `checkExpiredLeases` removes exactly the entries whose `isLocal`
flag is `false` and whose last heartbeat is at least `LEASE_EXPIRY_MS`
old; every `isLocal = true` entry is retained no matter how old its
heartbeat is, and everything handed to the expiry callback comes from a
non-local expired entry. -/
theorem claim10_checkExpiredLeases_spec (nowMs : Int) (st : HbState) :
    (checkExpiredLeases nowMs st).1.nodeTable
        = st.nodeTable.filter (fun p => !shouldEvict nowMs p.2)
      ∧ (checkExpiredLeases nowMs st).2
        = (st.nodeTable.filter fun p => shouldEvict nowMs p.2).map
            (fun p => (p.1, p.2.ipAddress))
      ∧ (∀ p ∈ st.nodeTable, p.2.isLocal = true →
          p ∈ (checkExpiredLeases nowMs st).1.nodeTable)
      ∧ (∀ q ∈ (checkExpiredLeases nowMs st).2, ∃ p ∈ st.nodeTable,
          p.2.isLocal = false ∧ leaseExpired nowMs p.2 = true ∧ q = (p.1, p.2.ipAddress)) := by
  refine ⟨expireGo_table nowMs st.nodeTable st.ipToNodeId,
          expireGo_expired nowMs st.nodeTable st.ipToNodeId, ?_, ?_⟩
  · intro p hp hloc
    show p ∈ (expireGo nowMs st.nodeTable st.ipToNodeId).1
    rw [expireGo_table nowMs st.nodeTable st.ipToNodeId]
    refine List.mem_filter.mpr ⟨hp, ?_⟩
    simp [shouldEvict, hloc]
  · intro q hq
    replace hq : q ∈ (expireGo nowMs st.nodeTable st.ipToNodeId).2.2 := hq
    rw [expireGo_expired nowMs st.nodeTable st.ipToNodeId] at hq
    rcases List.mem_map.mp hq with ⟨p, hpmem, hpq⟩
    rcases List.mem_filter.mp hpmem with ⟨hp, hev⟩
    rw [shouldEvict, Bool.and_eq_true] at hev
    exact ⟨p, hp, by simpa using hev.1, hev.2, hpq.symm⟩

/-- A two-node demonstration table: a stale local entry and a stale
remote entry. -/
def hbDemoState : HbState :=
  { nodeTable :=
      [(List.replicate 32 1, ⟨List.replicate 32 1, 10, 167772161, 0, "me", true⟩),
       (List.replicate 32 2, ⟨List.replicate 32 2, 11, 167772162, 0, "peer", false⟩)],
    ipToNodeId := fun _ => none }

/-- Concrete instance of `claim10_checkExpiredLeases_spec`: the stale
local entry survives the sweep. -/
theorem claim10_witness :
    (List.replicate 32 1, (⟨List.replicate 32 1, 10, 167772161, 0, "me", true⟩ : NodeInfoL))
      ∈ (checkExpiredLeases 500000 hbDemoState).1.nodeTable :=
  (claim10_checkExpiredLeases_spec 500000 hbDemoState).2.2.1
    (List.replicate 32 1, ⟨List.replicate 32 1, 10, 167772161, 0, "me", true⟩)
    (by simp [hbDemoState]) rfl

/-- Claim C5: the `IP_PACKET` receive path: a frame whose embedded
destination equals the local IP or is a broadcast address is delivered to
the TUN device (and, the action being exclusive, never re-sent to any
peer); otherwise a route to a non-local entry whose peer is not the
sender forwards the same payload to exactly that peer; in every other
case (short frame, no route, local route, or route back to the sender)
nothing is written or sent. -/
theorem claim5_handleIpPacket_spec (localIP baseIP mask : Nat) (rt : RouteTable)
    (sender : Nat) (payload : List Nat) :
    (payload.length ≤ WRAPPER_SIZE →
        handleIpPacket localIP baseIP mask rt sender payload = IpAction.drop)
  ∧ (WRAPPER_SIZE < payload.length →
      ((extractDestIP (payload.drop WRAPPER_SIZE) = localIP ∨
          isBroadcastAddress (extractDestIP (payload.drop WRAPPER_SIZE)) baseIP mask = true) →
        handleIpPacket localIP baseIP mask rt sender payload
          = IpAction.deliverTun (payload.drop WRAPPER_SIZE))
      ∧ (¬ (extractDestIP (payload.drop WRAPPER_SIZE) = localIP ∨
            isBroadcastAddress (extractDestIP (payload.drop WRAPPER_SIZE)) baseIP mask = true) →
          ∀ e, rt (extractDestIP (payload.drop WRAPPER_SIZE)) = some e →
            e.isLocal = false → e.steamID ≠ sender →
            handleIpPacket localIP baseIP mask rt sender payload
              = IpAction.forward e.steamID payload)
      ∧ (¬ (extractDestIP (payload.drop WRAPPER_SIZE) = localIP ∨
            isBroadcastAddress (extractDestIP (payload.drop WRAPPER_SIZE)) baseIP mask = true) →
          (rt (extractDestIP (payload.drop WRAPPER_SIZE)) = none ∨
            (∃ e, rt (extractDestIP (payload.drop WRAPPER_SIZE)) = some e ∧
              (e.isLocal = true ∨ e.steamID = sender))) →
          handleIpPacket localIP baseIP mask rt sender payload = IpAction.drop)) := by
  constructor
  · intro h
    simp [handleIpPacket, h]
  · intro hlen
    have hnle : ¬ payload.length ≤ WRAPPER_SIZE := Nat.not_le.mpr hlen
    refine ⟨?_, ?_, ?_⟩
    · intro hd
      simp only [handleIpPacket, if_neg hnle]
      rw [if_pos hd]
    · intro hd e he hl hs
      simp only [handleIpPacket, if_neg hnle]
      rw [if_neg hd, he]
      simp [hl, hs]
    · intro hd hcase
      simp only [handleIpPacket, if_neg hnle]
      rw [if_neg hd]
      rcases hcase with hnone | ⟨e, he, hcond⟩
      · rw [hnone]
      · rw [he]
        rcases hcond with h1 | h1 <;> simp [h1]

/-- A 52-byte `IP_PACKET` payload: the 32-byte NodeID wrapper followed by
a 20-byte IPv4 header with destination 10.0.0.2. -/
def demoPayload : List Nat :=
  List.replicate WRAPPER_SIZE 0 ++ (69 :: List.replicate 15 0 ++ [10, 0, 0, 2])

/-- Concrete instance of `claim5_handleIpPacket_spec`: a frame addressed
to the local IP 10.0.0.2 is delivered to TUN. -/
theorem claim5_witness :
    handleIpPacket 167772162 167772160 4294967040 (fun _ => none) 7 demoPayload
      = IpAction.deliverTun (demoPayload.drop WRAPPER_SIZE) :=
  ((claim5_handleIpPacket_spec 167772162 167772160 4294967040 (fun _ => none) 7
      demoPayload).2 (by decide)).1 (Or.inl (by decide))

theorem processConflicts_all_stale (localId : List Nat) (nowMs : Int) :
    ∀ cs : List ConflictInfoL,
      (∀ c ∈ cs, HEARTBEAT_EXPIRY_MS ≤ nowMs - c.lastHeartbeatMs) →
      processConflicts localId nowMs cs = (true, [])
  | [], _ => rfl
  | c :: rest, h => by
    have hc : HEARTBEAT_EXPIRY_MS ≤ nowMs - c.lastHeartbeatMs := h c (List.mem_cons_self _ _)
    simp only [processConflicts, if_pos hc]
    exact processConflicts_all_stale localId nowMs rest fun d hd => h d (List.mem_cons_of_mem _ hd)

/-- A low-priority 32-byte Node ID (all bytes `1`). -/
def nidLo : List Nat := List.replicate 32 1

/-- A high-priority 32-byte Node ID (all bytes `2`). -/
def nidHi : List Nat := List.replicate 32 2

/-- A negotiator probing 10.0.0.9 in 10.0.0.0/24 whose probe window
started at t = 0 and which collected one conflict whose responder's last
heartbeat is at t = 0. -/
def exStC1 : NegSt :=
  { localNodeId := nidLo, localSteamID := 10, localIP := 0,
    baseIP := 167772160, subnetMask := 4294967040,
    state := NState.PROBING, candidateIP := 167772169, probeOffset := 0,
    probeStartMs := 0,
    collectedConflicts := [⟨nidHi, 0, 77⟩],
    usedIPs := [] }

/-- Claim C1, counterexample: at t = 1000000 ms the single collected
conflict is stale (age 1000000 ms ≥ 180000 ms) and the probe window has
elapsed; `checkTimeout` does enter `STABLE` and broadcast
`ADDRESS_ANNOUNCE`, but — contrary to the claim — sends no
`FORCED_RELEASE` to the stale responder (Steam ID 77): the only emitted
message is the announce. -/
theorem claim1_counterexample :
    (checkTimeout exStC1 1000000).1.state = NState.STABLE
  ∧ (checkTimeout exStC1 1000000).2 = [SentMsg.addressAnnounceB 167772169 nidLo]
  ∧ ∀ m ∈ (checkTimeout exStC1 1000000).2,
      m ≠ SentMsg.forcedRelease 77 167772169 nidLo := by
  decide

/-- Claim C1, amended: if the probe window has elapsed and every collected
conflict is stale (at least `HEARTBEAT_EXPIRY_MS` old), `checkTimeout`
moves the negotiator from `PROBING` to `STABLE` at the candidate IP and
broadcasts `ADDRESS_ANNOUNCE`, sending nothing else: stale responders are
skipped, so no `FORCED_RELEASE` is sent to them (a `FORCED_RELEASE` goes
only to active lower-priority responders). -/
theorem claim1_checkTimeout_stale (st : NegSt) (nowMs : Int)
    (hp : st.state = NState.PROBING)
    (ht : PROBE_TIMEOUT_MS ≤ nowMs - st.probeStartMs)
    (hstale : ∀ c ∈ st.collectedConflicts, HEARTBEAT_EXPIRY_MS ≤ nowMs - c.lastHeartbeatMs) :
    (checkTimeout st nowMs).1.state = NState.STABLE
  ∧ (checkTimeout st nowMs).1.localIP = st.candidateIP
  ∧ (checkTimeout st nowMs).2
      = [SentMsg.addressAnnounceB st.candidateIP st.localNodeId] := by
  have hnot : ¬ nowMs - st.probeStartMs < PROBE_TIMEOUT_MS := not_lt.mpr ht
  simp only [checkTimeout, hp, ne_eq, not_true_eq_false, if_false, if_neg hnot,
    processConflicts_all_stale st.localNodeId nowMs st.collectedConflicts hstale]
  simp

/-- Concrete instance of `claim1_checkTimeout_stale` at the state of the
counterexample. -/
theorem claim1_witness :
    (checkTimeout exStC1 1000000).1.state = NState.STABLE
  ∧ (checkTimeout exStC1 1000000).1.localIP = 167772169
  ∧ (checkTimeout exStC1 1000000).2 = [SentMsg.addressAnnounceB 167772169 nidLo] :=
  claim1_checkTimeout_stale exStC1 1000000 rfl (by decide) (by decide)

/-- A stable negotiator owning 10.0.0.2 in 10.0.0.0/24. -/
def exStC2 : NegSt :=
  { localNodeId := nidLo, localSteamID := 10, localIP := 167772162,
    baseIP := 167772160, subnetMask := 4294967040,
    state := NState.STABLE, candidateIP := 0, probeOffset := 0,
    probeStartMs := 0, collectedConflicts := [], usedIPs := [167772162] }

/-- Claim C2, counterexample: a `PROBE_REQUEST` for the local IP from the
strictly higher Node ID `nidHi` leaves the stable negotiator completely
unchanged (in particular it does not transition to `PROBING`): the code
answers with a `PROBE_RESPONSE` instead of surrendering. -/
theorem claim2_counterexample :
    (handleProbeRequest exStC2 167772162 nidHi 9 500).1 = exStC2
  ∧ (handleProbeRequest exStC2 167772162 nidHi 9 500).1.state ≠ NState.PROBING := by
  decide

/-- Claim C2, amended: while `STABLE`, a `PROBE_REQUEST` for the local IP
never changes the negotiator's state, whatever the requester's Node ID:
the node asserts ownership with a `PROBE_RESPONSE` and stays `STABLE`
(the surrender of an address happens only through `ADDRESS_ANNOUNCE` or
`FORCED_RELEASE` from a higher Node ID). -/
theorem claim2_stable_probe_request (st : NegSt) (reqIP : Nat) (reqNid : List Nat)
    (sender : Nat) (nowMs : Int)
    (hs : st.state = NState.STABLE) (hip : reqIP = st.localIP) :
    (handleProbeRequest st reqIP reqNid sender nowMs).1 = st
  ∧ (handleProbeRequest st reqIP reqNid sender nowMs).2
      = [SentMsg.probeResponse sender reqIP st.localNodeId nowMs] := by
  simp [handleProbeRequest, hs, hip]

/-- Concrete instance of `claim2_stable_probe_request`. -/
theorem claim2_witness :
    (handleProbeRequest exStC2 167772162 nidHi 9 500).1 = exStC2
  ∧ (handleProbeRequest exStC2 167772162 nidHi 9 500).2
      = [SentMsg.probeResponse 9 167772162 nidLo 500] :=
  claim2_stable_probe_request exStC2 167772162 nidHi 9 500 rfl rfl

/-- The all-zero 32-byte Node ID. -/
def nidZ : List Nat := List.replicate 32 0

/-- A negotiator probing 10.0.0.9 in 10.0.0.0/24 with probe offset 3. -/
def exStC7 : NegSt :=
  { localNodeId := nidLo, localSteamID := 10, localIP := 0,
    baseIP := 167772160, subnetMask := 4294967040,
    state := NState.PROBING, candidateIP := 167772169, probeOffset := 3,
    probeStartMs := 0, collectedConflicts := [], usedIPs := [] }

/-- Claim C7, counterexample: while probing, a `PROBE_REQUEST` for the
current candidate whose requester Node ID *equals* the local one is not
answered: the claim says the node replies and keeps its candidate
whenever the requester's Node ID is not higher, but the code yields
exactly when the local node lacks *strict* priority, so at equality it
increments the offset and re-probes (broadcasting a new `PROBE_REQUEST`
for 10.0.0.12) instead of responding. -/
theorem claim7_counterexample :
    (handleProbeRequest exStC7 167772169 nidLo 9 700).2
        = [SentMsg.probeRequestB 167772172 nidLo]
  ∧ (handleProbeRequest exStC7 167772169 nidLo 9 700).1.probeOffset = 4
  ∧ ∀ m ∈ (handleProbeRequest exStC7 167772169 nidLo 9 700).2,
      m ≠ SentMsg.probeResponse 9 167772169 nidLo 700 := by
  decide

/-- Claim C7, amended: on a `PROBE_REQUEST`: while `STABLE` with the
requested IP equal to the local IP, reply with a `PROBE_RESPONSE`
carrying the requested (own) IP, the local Node ID and the current
timestamp, regardless of the requester's priority; while `PROBING` with
the requested IP equal to the candidate, reply the same way — keeping
the candidate — exactly when the local Node ID has strict priority over
the requester's, and otherwise (requester's Node ID higher *or equal*)
increment the offset and re-probe a fresh candidate without responding. -/
theorem claim7_probe_request_spec (st : NegSt) (reqIP : Nat) (reqNid : List Nat)
    (sender : Nat) (nowMs : Int) :
    (st.state = NState.STABLE → reqIP = st.localIP →
      handleProbeRequest st reqIP reqNid sender nowMs
        = (st, [SentMsg.probeResponse sender reqIP st.localNodeId nowMs]))
  ∧ (st.state = NState.PROBING → reqIP = st.candidateIP →
      hasPriority st.localNodeId reqNid = true →
      handleProbeRequest st reqIP reqNid sender nowMs
        = (st, [SentMsg.probeResponse sender reqIP st.localNodeId nowMs]))
  ∧ (st.state = NState.PROBING → reqIP = st.candidateIP →
      hasPriority st.localNodeId reqNid = false →
      (handleProbeRequest st reqIP reqNid sender nowMs).1.probeOffset = st.probeOffset + 1
      ∧ (handleProbeRequest st reqIP reqNid sender nowMs).1.state = NState.PROBING
      ∧ (handleProbeRequest st reqIP reqNid sender nowMs).1.candidateIP
          = findNextAvailableIP st.usedIPs st.baseIP st.subnetMask
              (generateCandidateIP st.localNodeId st.baseIP st.subnetMask (st.probeOffset + 1))
      ∧ (handleProbeRequest st reqIP reqNid sender nowMs).2
          = [SentMsg.probeRequestB
              ((handleProbeRequest st reqIP reqNid sender nowMs).1.candidateIP)
              st.localNodeId]) := by
  refine ⟨?_, ?_, ?_⟩
  · intro hs hip
    simp [handleProbeRequest, hs, hip]
  · intro hs hip hpr
    simp [handleProbeRequest, hs, hip, hpr]
  · intro hs hip hpr
    simp [handleProbeRequest, hs, hip, hpr, startNegotiation]

/-- Concrete instance of `claim7_probe_request_spec`: the probing node
out-prioritizes an all-zero requester and answers while keeping its
candidate. -/
theorem claim7_witness :
    handleProbeRequest exStC7 167772169 nidZ 9 700
      = (exStC7, [SentMsg.probeResponse 9 167772169 nidLo 700]) :=
  (claim7_probe_request_spec exStC7 167772169 nidZ 9 700).2.1 rfl rfl (by decide)

theorem mem_markIPUsed (st : NegSt) (ip : Nat) : ip ∈ (markIPUsed st ip).usedIPs := by
  by_cases h : ip ∈ st.usedIPs <;> simp [markIPUsed, h]

/-- A freshly started bridge: stable negotiator at 10.0.0.2 with an empty
`UsedIPSet`, empty node table, empty routing table. -/
def exBridgeC3 : BridgeSt :=
  { neg := { localNodeId := nidLo, localSteamID := 10, localIP := 167772162,
             baseIP := 167772160, subnetMask := 4294967040,
             state := NState.STABLE, candidateIP := 0, probeOffset := 0,
             probeStartMs := 0, collectedConflicts := [], usedIPs := [] },
    hb := ⟨[], fun _ => none⟩,
    rt := fun _ => none }

/-- Claim C3, counterexample: dispatching a `HEARTBEAT` that carries IP
10.0.0.5 from a previously unknown node does create a `NodeInfo`, yet the
heartbeat's IP is *not* added to the negotiator's `UsedIPSet`, which
stays empty (the claim asserts membership). -/
theorem claim3_counterexample :
    lookupNode (dispatchHeartbeat exBridgeC3 167772165 nidHi 7 "peer" 100).1.hb.nodeTable nidHi
      ≠ none
  ∧ (dispatchHeartbeat exBridgeC3 167772165 nidHi 7 "peer" 100).1.neg.usedIPs = []
  ∧ 167772165 ∉ (dispatchHeartbeat exBridgeC3 167772165 nidHi 7 "peer" 100).1.neg.usedIPs := by
  decide

/-- Claim C3, amended: only an observed `ADDRESS_ANNOUNCE` marks the
carried IP as used in the negotiator's `UsedIPSet` (via
`handleAddressAnnounce` and the route-added callback).  A `HEARTBEAT`
leaves the negotiator — in particular `UsedIPSet` — untouched, recording
the IP in the heartbeat manager's `ipToNodeId_` index instead (when the
node was unknown), and a `PROBE_RESPONSE` records a conflict report but
never changes `UsedIPSet`. -/
theorem claim3_used_ip_updates (st : BridgeSt) (ip : Nat) (nid : List Nat) (sender : Nat)
    (name : String) (nowMs hbMs : Int) :
    ip ∈ (dispatchAddressAnnounce st ip nid sender name nowMs).1.neg.usedIPs
  ∧ (dispatchHeartbeat st ip nid sender name nowMs).1.neg = st.neg
  ∧ (dispatchProbeResponse st ip nid hbMs sender).1.neg.usedIPs = st.neg.usedIPs
  ∧ (lookupNode st.hb.nodeTable nid = none →
      (dispatchHeartbeat st ip nid sender name nowMs).1.hb.ipToNodeId ip = some nid) := by
  refine ⟨?_, rfl, ?_, ?_⟩
  · simp only [dispatchAddressAnnounce, bridgeUpdateRoute]
    exact mem_markIPUsed _ ip
  · simp only [dispatchProbeResponse, handleProbeResponse]
    split
    · rfl
    · split <;> rfl
  · intro h
    simp [dispatchHeartbeat, hbHandleHeartbeat, h]

/-- Concrete instance of `claim3_used_ip_updates`: the heartbeat from the
counterexample lands in the heartbeat manager's IP index. -/
theorem claim3_witness :
    (dispatchHeartbeat exBridgeC3 167772165 nidHi 7 "peer" 100).1.hb.ipToNodeId 167772165
      = some nidHi :=
  (claim3_used_ip_updates exBridgeC3 167772165 nidHi 7 "peer" 100 0).2.2.2 rfl

/-- At most one routing entry per peer identity. -/
def atMostOnePerPeer (rt : RouteTable) : Prop :=
  ∀ k1 k2 e1 e2, rt k1 = some e1 → rt k2 = some e2 → e1.steamID = e2.steamID → k1 = k2

/-- A routing table holding one entry: peer 2 at 10.0.0.1. -/
def rtC8 : RouteTable := fun k =>
  if k = 167772161 then some ⟨2, 167772161, "b", false, nidHi⟩ else none

/-- Claim C8, counterexample: `updateRoute` for peer 1 at 10.0.0.1
overwrites the entry that peer 2 held at that very IP: contrary to the
claim, an entry belonging to *another* peer is not left unchanged when it
sits at the inserted IP (peer 2 loses its only entry). -/
theorem claim8_counterexample :
    rtC8 167772161 = some ⟨2, 167772161, "b", false, nidHi⟩
  ∧ updateRoute rtC8 99 nidLo 1 167772161 "a" 167772161
      = some ⟨1, 167772161, "a", false, nidLo⟩
  ∧ updateRoute rtC8 99 nidLo 1 167772161 "a" 167772161
      ≠ some ⟨2, 167772161, "b", false, nidHi⟩ := by
  decide

/-- Claim C8, amended: after `updateRoute` inserts an entry for a peer,
the table contains exactly one entry whose peer identity equals that
peer; entries of other peers *at keys other than the inserted IP* are
unchanged (an entry of another peer at the inserted IP itself is
overwritten), and every surviving entry of another peer was already
present; hence the at-most-one-IP-per-peer invariant is preserved by
every `updateRoute`. -/
theorem claim8_updateRoute_spec (rt : RouteTable) (my : Nat) (nid : List Nat)
    (sid ip : Nat) (name : String) :
    (∀ k e, updateRoute rt my nid sid ip name k = some e → e.steamID = sid → k = ip)
  ∧ (∃ e, updateRoute rt my nid sid ip name ip = some e ∧ e.steamID = sid)
  ∧ (∀ k, k ≠ ip → ∀ e, rt k = some e → e.steamID ≠ sid →
      updateRoute rt my nid sid ip name k = some e)
  ∧ (∀ k e, updateRoute rt my nid sid ip name k = some e → e.steamID ≠ sid →
      k ≠ ip ∧ rt k = some e)
  ∧ (atMostOnePerPeer rt → atMostOnePerPeer (updateRoute rt my nid sid ip name)) := by
  have key : ∀ k e, updateRoute rt my nid sid ip name k = some e →
      (k = ip ∧ e.steamID = sid) ∨ (k ≠ ip ∧ rt k = some e ∧ e.steamID ≠ sid) := by
    intro k e h
    by_cases hk : k = ip
    · left
      refine ⟨hk, ?_⟩
      simp only [updateRoute, if_pos hk] at h
      cases h
      rfl
    · right
      simp only [updateRoute, if_neg hk] at h
      rcases he : rt k with _ | e'
      · rw [he] at h
        cases h
      · rw [he] at h
        have h' : (if e'.steamID = sid then none else some e') = some e := h
        by_cases hs : e'.steamID = sid
        · rw [if_pos hs] at h'
          cases h'
        · rw [if_neg hs] at h'
          injection h' with hee
          subst hee
          exact ⟨hk, rfl, hs⟩
  refine ⟨?_, ?_, ?_, ?_, ?_⟩
  · intro k e h hs
    rcases key k e h with ⟨hk, _⟩ | ⟨_, _, hne⟩
    · exact hk
    · exact absurd hs hne
  · exact ⟨⟨sid, ip, name, decide (sid = my), nid⟩, by simp [updateRoute], rfl⟩
  · intro k hk e he hs
    simp only [updateRoute, if_neg hk, he, if_neg hs]
  · intro k e h hs
    rcases key k e h with ⟨_, hsid⟩ | ⟨hk, he, _⟩
    · exact absurd hsid hs
    · exact ⟨hk, he⟩
  · intro hbase k1 k2 e1 e2 h1 h2 hs
    rcases key k1 e1 h1 with ⟨hk1, hs1⟩ | ⟨hk1, he1, hs1⟩ <;>
      rcases key k2 e2 h2 with ⟨hk2, hs2⟩ | ⟨hk2, he2, hs2⟩
    · rw [hk1, hk2]
    · exact absurd (hs.symm.trans hs1) hs2
    · exact absurd (hs.trans hs2) hs1
    · exact hbase k1 k2 e1 e2 he1 he2 hs

/-- Concrete instance of `claim8_updateRoute_spec`: inserting peer 1 at
10.0.0.2 preserves at-most-one-IP-per-peer over the one-entry table. -/
theorem claim8_witness :
    atMostOnePerPeer (updateRoute rtC8 99 nidLo 1 167772162 "a") := by
  have hbase : atMostOnePerPeer rtC8 := by
    intro k1 k2 e1 e2 h1 h2 _
    by_cases c1 : k1 = 167772161
    · by_cases c2 : k2 = 167772161
      · rw [c1, c2]
      · simp [rtC8, c2] at h2
    · simp [rtC8, c1] at h1
  exact (claim8_updateRoute_spec rtC8 99 nidLo 1 167772162 "a").2.2.2.2 hbase

/-- Claim C4, counterexample: the invariant fails on both fronts: (a) an
`ADDRESS_ANNOUNCE` carrying the out-of-subnet IP 192.168.1.5 is inserted
into the routing table unconditionally by the bridge's
`ADDRESS_ANNOUNCE` case, violating `(ip & mask) = (base & mask)`; (b)
`handleRouteUpdate` admits the directed-broadcast address 10.0.0.255
(host portion all-ones), which passes its mask test. -/
theorem claim4_counterexample :
    ((dispatchAddressAnnounce exBridgeC3 3232235781 nidHi 7 "peer" 0).1.rt 3232235781
        ≠ none)
  ∧ ¬ ((3232235781 : Nat) &&& 4294967040 = 167772160 &&& 4294967040)
  ∧ (handleRouteUpdate (fun _ => []) (fun _ => "") 99 167772160 4294967040 (fun _ => none)
      [(5, 167772415)] 167772415 ≠ none)
  ∧ (167772415 : Nat) &&& 255 = 255 := by
  refine ⟨?_, by decide, by decide, by decide⟩
  simp [dispatchAddressAnnounce, bridgeUpdateRoute, updateRoute, handleAddressAnnounce,
    markIPUsed, exBridgeC3]

/-- Claim C4, amended: only the `ROUTE_UPDATE` path filters by subnet:
every entry newly inserted by `handleRouteUpdate` satisfies
`(ip & mask) = (base & mask)` (the all-zero / all-ones host portions are
*not* excluded there, and the `ADDRESS_ANNOUNCE` path / `updateRoute`
perform no subnet check at all, so the claimed invariant holds only in
this weakened, per-path form). -/
theorem claim4_route_update_subnet (gen : Nat → List Nat) (names : Nat → String)
    (my base mask : Nat) :
    ∀ (recs : List (Nat × Nat)) (rt : RouteTable) (k : Nat),
      rt k = none →
      handleRouteUpdate gen names my base mask rt recs k ≠ none →
      k &&& mask = base &&& mask
  | [], rt, k => fun h hne => absurd h hne
  | r :: rest, rt, k => by
    intro h hne
    have hfold : handleRouteUpdate gen names my base mask rt (r :: rest)
        = handleRouteUpdate gen names my base mask
            (routeStep gen names my base mask rt r) rest := rfl
    rw [hfold] at hne
    by_cases hnew : routeStep gen names my base mask rt r k = none
    · exact claim4_route_update_subnet gen names my base mask rest _ k hnew hne
    · by_cases c1 : r.1 = my
      · rw [routeStep, if_pos c1] at hnew
        exact absurd h hnew
      · by_cases c2 : (rt r.2).isSome
        · rw [routeStep, if_neg c1, if_pos c2] at hnew
          exact absurd h hnew
        · by_cases c3 : r.2 &&& mask = base &&& mask
          · by_cases hk : k = r.2
            · rw [hk]
              exact c3
            · exfalso
              rw [routeStep, if_neg c1, if_neg c2, if_pos c3] at hnew
              rw [updateRoute, if_neg hk, h] at hnew
              exact hnew rfl
          · rw [routeStep, if_neg c1, if_neg c2, if_neg c3] at hnew
            exact absurd h hnew

/-- Concrete instance of `claim4_route_update_subnet`: the record
`(peer 5, 10.0.0.2)` inserted from an empty table lies in 10.0.0.0/24. -/
theorem claim4_witness :
    (handleRouteUpdate (fun _ => []) (fun _ => "") 99 167772160 4294967040 (fun _ => none)
        [(5, 167772162)] 167772162 ≠ none)
  ∧ (167772162 : Nat) &&& 4294967040 = 167772160 &&& 4294967040 :=
  ⟨by decide, claim4_route_update_subnet (fun _ => []) (fun _ => "") 99 167772160 4294967040
      [(5, 167772162)] (fun _ => none) 167772162 rfl (by decide)⟩

theorem routeStep_no_delete (gen : Nat → List Nat) (names : Nat → String)
    (my base mask : Nat) (rt : RouteTable) (r : Nat × Nat)
    (hB : ∀ k e, rt k = some e → e.steamID ≠ r.1) :
    ∀ k, rt k ≠ none → routeStep gen names my base mask rt r k ≠ none := by
  intro k hk
  by_cases c1 : r.1 = my
  · rw [routeStep, if_pos c1]
    exact hk
  · by_cases c2 : (rt r.2).isSome
    · rw [routeStep, if_neg c1, if_pos c2]
      exact hk
    · by_cases c3 : r.2 &&& mask = base &&& mask
      · rw [routeStep, if_neg c1, if_neg c2, if_pos c3]
        by_cases hkip : k = r.2
        · rw [updateRoute, if_pos hkip]
          exact fun hcon => Option.noConfusion hcon
        · rw [updateRoute, if_neg hkip]
          rcases he : rt k with _ | e
          · exact absurd he hk
          · have hne : e.steamID ≠ r.1 := hB k e he
            show (if e.steamID = r.1 then none else some e) ≠ none
            rw [if_neg hne]
            exact fun hcon => Option.noConfusion hcon
      · rw [routeStep, if_neg c1, if_neg c2, if_neg c3]
        exact hk

theorem routeStep_preserves (gen : Nat → List Nat) (names : Nat → String)
    (my base mask : Nat) (rt : RouteTable) (r : Nat × Nat) (sids : List Nat)
    (hnot : r.1 ∉ sids)
    (hB : ∀ k e, rt k = some e → e.steamID ∉ sids) :
    ∀ k e, routeStep gen names my base mask rt r k = some e → e.steamID ∉ sids := by
  intro k e h
  by_cases c1 : r.1 = my
  · rw [routeStep, if_pos c1] at h
    exact hB k e h
  · by_cases c2 : (rt r.2).isSome
    · rw [routeStep, if_neg c1, if_pos c2] at h
      exact hB k e h
    · by_cases c3 : r.2 &&& mask = base &&& mask
      · rw [routeStep, if_neg c1, if_neg c2, if_pos c3] at h
        by_cases hkip : k = r.2
        · rw [updateRoute, if_pos hkip] at h
          cases h
          exact hnot
        · rw [updateRoute, if_neg hkip] at h
          rcases he : rt k with _ | e'
          · rw [he] at h
            cases h
          · rw [he] at h
            have h' : (if e'.steamID = r.1 then none else some e') = some e := h
            by_cases hs : e'.steamID = r.1
            · rw [if_pos hs] at h'
              cases h'
            · rw [if_neg hs] at h'
              injection h' with hee
              subst hee
              exact hB k e' he
      · rw [routeStep, if_neg c1, if_neg c2, if_neg c3] at h
        exact hB k e h

theorem fold_no_delete (gen : Nat → List Nat) (names : Nat → String) (my base mask : Nat) :
    ∀ (recs : List (Nat × Nat)) (rt : RouteTable),
      (recs.map Prod.fst).Nodup →
      (∀ k e, rt k = some e → e.steamID ∉ recs.map Prod.fst) →
      ∀ k, rt k ≠ none → handleRouteUpdate gen names my base mask rt recs k ≠ none
  | [], rt => fun _ _ k hk => hk
  | r :: rest, rt => by
    intro hnd hB k hk
    rcases List.nodup_cons.mp hnd with ⟨hhead, hrest⟩
    have hBhead : ∀ k e, rt k = some e → e.steamID ≠ r.1 := by
      intro k' e' h' hcon
      exact hB k' e' h' (hcon ▸ List.mem_cons_self _ _)
    have hBrest : ∀ k e, routeStep gen names my base mask rt r k = some e →
        e.steamID ∉ rest.map Prod.fst :=
      routeStep_preserves gen names my base mask rt r (rest.map Prod.fst) hhead
        fun k' e' h' hmem => hB k' e' h' (List.mem_cons_of_mem _ hmem)
    exact fold_no_delete gen names my base mask rest (routeStep gen names my base mask rt r)
      hrest hBrest k (routeStep_no_delete gen names my base mask rt r hBhead k hk)

theorem fold_occupied (gen : Nat → List Nat) (names : Nat → String) (my base mask : Nat) :
    ∀ (recs : List (Nat × Nat)) (rt : RouteTable),
      (recs.map Prod.fst).Nodup →
      (∀ k e, rt k = some e → e.steamID ∉ recs.map Prod.fst) →
      ∀ p ∈ recs, p.1 ≠ my → p.2 &&& mask = base &&& mask →
        handleRouteUpdate gen names my base mask rt recs p.2 ≠ none
  | [], rt => by
    intro _ _ p hp
    cases hp
  | r :: rest, rt => by
    intro hnd hB p hp hpmy hpsub
    rcases List.nodup_cons.mp hnd with ⟨hhead, hrest⟩
    have hBhead : ∀ k e, rt k = some e → e.steamID ≠ r.1 := by
      intro k' e' h' hcon
      exact hB k' e' h' (hcon ▸ List.mem_cons_self _ _)
    have hBrest : ∀ k e, routeStep gen names my base mask rt r k = some e →
        e.steamID ∉ rest.map Prod.fst :=
      routeStep_preserves gen names my base mask rt r (rest.map Prod.fst) hhead
        fun k' e' h' hmem => hB k' e' h' (List.mem_cons_of_mem _ hmem)
    rcases List.mem_cons.mp hp with hpr | hpmem
    · subst hpr
      have hstep : routeStep gen names my base mask rt p p.2 ≠ none := by
        by_cases c2 : (rt p.2).isSome
        · rw [routeStep, if_neg hpmy, if_pos c2]
          exact fun hcon => by
            rw [hcon] at c2
            cases c2
        · rw [routeStep, if_neg hpmy, if_neg c2, if_pos hpsub, updateRoute, if_pos rfl]
          exact fun hcon => Option.noConfusion hcon
      exact fold_no_delete gen names my base mask rest (routeStep gen names my base mask rt p)
        hrest hBrest p.2 hstep
    · exact fold_occupied gen names my base mask rest (routeStep gen names my base mask rt r)
        hrest hBrest p hpmem hpmy hpsub

theorem fold_skip_all (gen : Nat → List Nat) (names : Nat → String) (my base mask : Nat) :
    ∀ (recs : List (Nat × Nat)) (rt : RouteTable),
      (∀ p ∈ recs, p.1 = my ∨ (rt p.2).isSome ∨ ¬ (p.2 &&& mask = base &&& mask)) →
      handleRouteUpdate gen names my base mask rt recs = rt
  | [], rt => fun _ => rfl
  | r :: rest, rt => by
    intro h
    have hstep : routeStep gen names my base mask rt r = rt := by
      rcases h r (List.mem_cons_self _ _) with hc | hc | hc
      · rw [routeStep, if_pos hc]
      · by_cases c1 : r.1 = my
        · rw [routeStep, if_pos c1]
        · rw [routeStep, if_neg c1, if_pos hc]
      · by_cases c1 : r.1 = my
        · rw [routeStep, if_pos c1]
        · by_cases c2 : (rt r.2).isSome
          · rw [routeStep, if_neg c1, if_pos c2]
          · rw [routeStep, if_neg c1, if_neg c2, if_neg hc]
    have hfold : handleRouteUpdate gen names my base mask rt (r :: rest)
        = handleRouteUpdate gen names my base mask (routeStep gen names my base mask rt r)
            rest := rfl
    rw [hfold, hstep]
    exact fold_skip_all gen names my base mask rest rt
      fun p hp => h p (List.mem_cons_of_mem _ hp)

theorem fold_new_entries (gen : Nat → List Nat) (names : Nat → String) (my base mask : Nat) :
    ∀ (recs : List (Nat × Nat)) (rt : RouteTable) (k : Nat),
      rt k = none →
      handleRouteUpdate gen names my base mask rt recs k ≠ none →
      ∃ p ∈ recs, p.1 ≠ my ∧ p.2 = k ∧ k &&& mask = base &&& mask
  | [], rt, k => fun h hne => absurd h hne
  | r :: rest, rt, k => by
    intro h hne
    have hfold : handleRouteUpdate gen names my base mask rt (r :: rest)
        = handleRouteUpdate gen names my base mask (routeStep gen names my base mask rt r)
            rest := rfl
    rw [hfold] at hne
    by_cases hnew : routeStep gen names my base mask rt r k = none
    · rcases fold_new_entries gen names my base mask rest _ k hnew hne with ⟨p, hp, hq⟩
      exact ⟨p, List.mem_cons_of_mem _ hp, hq⟩
    · by_cases c1 : r.1 = my
      · rw [routeStep, if_pos c1] at hnew
        exact absurd h hnew
      · by_cases c2 : (rt r.2).isSome
        · rw [routeStep, if_neg c1, if_pos c2] at hnew
          exact absurd h hnew
        · by_cases c3 : r.2 &&& mask = base &&& mask
          · by_cases hk : k = r.2
            · exact ⟨r, List.mem_cons_self _ _, c1, hk.symm, hk ▸ c3⟩
            · exfalso
              rw [routeStep, if_neg c1, if_neg c2, if_pos c3] at hnew
              rw [updateRoute, if_neg hk, h] at hnew
              exact hnew rfl
          · rw [routeStep, if_neg c1, if_neg c2, if_neg c3] at hnew
            exact absurd h hnew

/-- The routing table of the C9 counterexample: peer 2 already holds
10.0.0.1. -/
def rtC9 : RouteTable := fun k =>
  if k = 167772161 then some ⟨2, 167772161, "b", false, nidHi⟩ else none

/-- The `ROUTE_UPDATE` record sequence of the C9 counterexample:
`(peer 1, 10.0.0.1), (peer 2, 10.0.0.2)`. -/
def recsC9 : List (Nat × Nat) := [(1, 167772161), (2, 167772162)]

/-- Claim C9, counterexample: applying the same `ROUTE_UPDATE` payload
twice does *not* always yield the same table: over a table where peer 2
already holds 10.0.0.1, the first pass skips `(1, 10.0.0.1)` (IP
present) and then, inserting `(2, 10.0.0.2)`, evicts peer 2's old entry
at 10.0.0.1; the second pass finds 10.0.0.1 free and inserts peer 1
there, so the tables differ at 10.0.0.1. -/
theorem claim9_counterexample :
    handleRouteUpdate (fun _ => []) (fun _ => "") 99 167772160 4294967040
        (handleRouteUpdate (fun _ => []) (fun _ => "") 99 167772160 4294967040 rtC9 recsC9)
        recsC9 167772161
      ≠ handleRouteUpdate (fun _ => []) (fun _ => "") 99 167772160 4294967040 rtC9 recsC9
          167772161 := by
  decide

/-- Claim C9, amended: `handleRouteUpdate` is idempotent provided the
payload names each peer at most once and the prior table holds no entry
for any peer named in the payload (without these provisos a second
application can differ, because inserting one record may evict an entry
that caused another record to be skipped).  Unconditionally: a record
whose IP is already routed leaves the table untouched at its processing
step, a new entry only ever arises from a non-local in-subnet record,
and receipt of a `ROUTE_UPDATE` emits no message (no re-broadcast). -/
theorem claim9_route_update_spec (gen : Nat → List Nat) (names : Nat → String)
    (my base mask : Nat) (rt : RouteTable) (recs : List (Nat × Nat)) (st : BridgeSt)
    (hnodup : (recs.map Prod.fst).Nodup)
    (hfresh : ∀ k e, rt k = some e → e.steamID ∉ recs.map Prod.fst) :
    handleRouteUpdate gen names my base mask
        (handleRouteUpdate gen names my base mask rt recs) recs
      = handleRouteUpdate gen names my base mask rt recs
  ∧ (∀ (rt' : RouteTable) (r : Nat × Nat), (rt' r.2).isSome →
      routeStep gen names my base mask rt' r = rt')
  ∧ (∀ k, rt k = none → handleRouteUpdate gen names my base mask rt recs k ≠ none →
      ∃ p ∈ recs, p.1 ≠ my ∧ p.2 = k ∧ k &&& mask = base &&& mask)
  ∧ (dispatchRouteUpdate gen names base mask st recs).2 = [] := by
  refine ⟨?_, ?_, fold_new_entries gen names my base mask recs rt, rfl⟩
  · apply fold_skip_all
    intro p hp
    by_cases hmy : p.1 = my
    · exact Or.inl hmy
    · by_cases hsub : p.2 &&& mask = base &&& mask
      · refine Or.inr (Or.inl ?_)
        have := fold_occupied gen names my base mask recs rt hnodup hfresh p hp hmy hsub
        rcases hres : handleRouteUpdate gen names my base mask rt recs p.2 with _ | e
        · exact absurd hres this
        · rfl
      · exact Or.inr (Or.inr hsub)
  · intro rt' r hsome
    by_cases c1 : r.1 = my
    · rw [routeStep, if_pos c1]
    · rw [routeStep, if_neg c1, if_pos hsome]

/-- Concrete instance of `claim9_route_update_spec`: from the empty
table, applying the counterexample's record sequence twice equals
applying it once. -/
theorem claim9_witness :
    handleRouteUpdate (fun _ => []) (fun _ => "") 99 167772160 4294967040
        (handleRouteUpdate (fun _ => []) (fun _ => "") 99 167772160 4294967040
          (fun _ => none) recsC9) recsC9
      = handleRouteUpdate (fun _ => []) (fun _ => "") 99 167772160 4294967040
          (fun _ => none) recsC9 :=
  (claim9_route_update_spec (fun _ => []) (fun _ => "") 99 167772160 4294967040
      (fun _ => none) recsC9 exBridgeC3 (by decide)
      fun _ e h => Option.noConfusion h).1

theorem land_two_pow_sub_one (a n : Nat) : a &&& (2 ^ n - 1) = a % 2 ^ n := by
  apply Nat.eq_of_testBit_eq
  intro i
  simp [Nat.testBit_land, Nat.testBit_two_pow_sub_one, Nat.testBit_mod_two_pow, Bool.and_comm]

theorem land_mod_two_pow (a b n : Nat) : (a &&& b) % 2 ^ n = (a % 2 ^ n) &&& (b % 2 ^ n) := by
  apply Nat.eq_of_testBit_eq
  intro i
  simp only [Nat.testBit_mod_two_pow, Nat.testBit_land]
  cases h : decide (i < n) <;> simp

theorem lor_mod_two_pow (a b n : Nat) : (a ||| b) % 2 ^ n = (a % 2 ^ n) ||| (b % 2 ^ n) := by
  apply Nat.eq_of_testBit_eq
  intro i
  simp only [Nat.testBit_mod_two_pow, Nat.testBit_lor]
  cases h : decide (i < n) <;> simp

theorem maxHostsOf_eq (e : Nat) (he2 : 2 ≤ e) (he32 : e ≤ 32) :
    maxHostsOf (2 ^ 32 - 2 ^ e) = 2 ^ e - 2 := by
  have h4 : 4 ≤ 2 ^ e := by
    calc (4 : Nat) = 2 ^ 2 := by norm_num
    _ ≤ 2 ^ e := Nat.pow_le_pow_right (by norm_num) he2
  have h32 : 2 ^ e ≤ 4294967296 := by
    calc (2 : Nat) ^ e ≤ 2 ^ 32 := Nat.pow_le_pow_right (by norm_num) he32
    _ = 4294967296 := by norm_num
  have hpow : (2 : Nat) ^ 32 = 4294967296 := by norm_num
  simp only [maxHostsOf, hpow]
  have hm : (4294967295 - (4294967296 - 2 ^ e) + 4294967295) % 4294967296 = 2 ^ e - 2 := by
    omega
  rw [hm, if_neg (by omega)]

/-- The scan order of `findNextAvailableIP` as described by the
specification: start at host part `hp` and repeatedly advance by
`wrapHost` (increment, wrapping past the top host address back to 1);
`scanAddr … k` is the address examined at step `k`. -/
def scanAddr (netBase hostMask : Nat) : Nat → Nat → Nat
  | hp, 0 => netBase ||| hp
  | hp, k + 1 => scanAddr netBase hostMask (wrapHost hostMask hp) k

theorem findLoop_first_free (used : List Nat) (netBase hostMask : Nat) :
    ∀ (fuel hp k : Nat), k ≤ fuel →
      scanAddr netBase hostMask hp k ∉ used →
      (∀ j < k, scanAddr netBase hostMask hp j ∈ used) →
      findLoop used netBase hostMask hp fuel = scanAddr netBase hostMask hp k := by
  intro fuel
  induction fuel with
  | zero =>
    intro hp k hk hfree hmin
    have hk0 : k = 0 := Nat.le_zero.mp hk
    subst hk0
    rfl
  | succ n ih =>
    intro hp k hk hfree hmin
    by_cases hu : (netBase ||| hp) ∈ used
    · cases k with
      | zero => exact absurd hu hfree
      | succ k' =>
        have hstep : findLoop used netBase hostMask hp (n + 1)
            = findLoop used netBase hostMask (wrapHost hostMask hp) n := by
          simp only [findLoop, if_pos hu]
        rw [hstep]
        exact ih (wrapHost hostMask hp) k' (by omega) hfree
          fun j hj => hmin (j + 1) (by omega)
    · cases k with
      | zero =>
        simp only [findLoop, if_neg hu]
        rfl
      | succ k' => exact absurd (hmin 0 (Nat.succ_pos k')) hu

/-- The all-`0xFF` 32-byte Node ID, whose low 24 bits are `0xFFFFFF`. -/
def nidFF : List Nat := List.replicate 32 255

/-- Claim C6, counterexample: for the all-`0xFF` Node ID at offset 1 in
10.0.0.0/24, the code truncates `lo24 + offset` to 24 bits *before* the
modulo: the generated candidate is 10.0.0.1 (host part
`((0xFFFFFF + 1) & 0xFFFFFF) % 254 + 1 = 1`), while the claim's formula
`(lo24 + offset) mod host_count + 1` yields host part 9. -/
theorem claim6_counterexample :
    generateCandidateIP nidFF 167772160 4294967040 1 = 167772161
  ∧ (lo24 nidFF + 1) % maxHostsOf 4294967040 + 1 = 9
  ∧ generateCandidateIP nidFF 167772160 4294967040 1 &&& 255 = 1 := by
  decide

/-- Claim C6, amended: for a prefix subnet mask `2^32 - 2^e` (so
`host_count = 2^e - 2` usable hosts): the candidate generated at a given
offset, before the availability scan, has host part
`(((lo24(node_id) + offset) mod 2^24) mod host_count) + 1` — the sum is
truncated to 24 bits *before* the modulo — and `findNextAvailableIP`
started from it returns the first address of the wrap-around scan
sequence that is not in `UsedIPSet`, whenever such an address occurs
within `host_count` probes. -/
theorem claim6_candidate_spec (nid : List Nat) (baseIP offset : Nat) (used : List Nat)
    (e mask : Nat) (he2 : 2 ≤ e) (he32 : e ≤ 32) (hmask : mask = 2 ^ 32 - 2 ^ e) :
    generateCandidateIP nid baseIP mask offset
        = (baseIP &&& mask) ||| ((lo24 nid + offset) % 16777216 % (2 ^ e - 2) + 1)
  ∧ generateCandidateIP nid baseIP mask offset % 2 ^ e
        = (lo24 nid + offset) % 16777216 % (2 ^ e - 2) + 1
  ∧ ∀ k ≤ 2 ^ e - 2,
      scanAddr (baseIP &&& mask) (2 ^ e - 1)
          ((lo24 nid + offset) % 16777216 % (2 ^ e - 2) + 1) k ∉ used →
      (∀ j < k, scanAddr (baseIP &&& mask) (2 ^ e - 1)
          ((lo24 nid + offset) % 16777216 % (2 ^ e - 2) + 1) j ∈ used) →
      findNextAvailableIP used baseIP mask (generateCandidateIP nid baseIP mask offset)
        = scanAddr (baseIP &&& mask) (2 ^ e - 1)
            ((lo24 nid + offset) % 16777216 % (2 ^ e - 2) + 1) k := by
  subst hmask
  have h4 : 4 ≤ 2 ^ e := by
    calc (4 : Nat) = 2 ^ 2 := by norm_num
    _ ≤ 2 ^ e := Nat.pow_le_pow_right (by norm_num) he2
  have h32 : 2 ^ e ≤ 4294967296 := by
    calc (2 : Nat) ^ e ≤ 2 ^ 32 := Nat.pow_le_pow_right (by norm_num) he32
    _ = 4294967296 := by norm_num
  have hmx : maxHostsOf (2 ^ 32 - 2 ^ e) = 2 ^ e - 2 := maxHostsOf_eq e he2 he32
  have hgen : generateCandidateIP nid baseIP (2 ^ 32 - 2 ^ e) offset
      = (baseIP &&& (2 ^ 32 - 2 ^ e)) |||
          ((lo24 nid + offset) % 16777216 % (2 ^ e - 2) + 1) := by
    simp only [generateCandidateIP, hmx]
  have hseedlt : (lo24 nid + offset) % 16777216 % (2 ^ e - 2) + 1 < 2 ^ e - 1 := by
    have := Nat.mod_lt ((lo24 nid + offset) % 16777216) (show 0 < 2 ^ e - 2 by omega)
    omega
  have hbase0 : (baseIP &&& (2 ^ 32 - 2 ^ e)) % 2 ^ e = 0 := by
    rw [land_mod_two_pow]
    have hdvd : 2 ^ e ∣ 2 ^ 32 - 2 ^ e := Nat.dvd_sub' (pow_dvd_pow 2 he32) dvd_rfl
    have hz : (2 ^ 32 - 2 ^ e) % 2 ^ e = 0 := Nat.mod_eq_zero_of_dvd hdvd
    rw [hz, Nat.and_zero]
  have hmod : ((baseIP &&& (2 ^ 32 - 2 ^ e)) |||
      ((lo24 nid + offset) % 16777216 % (2 ^ e - 2) + 1)) % 2 ^ e
      = (lo24 nid + offset) % 16777216 % (2 ^ e - 2) + 1 := by
    rw [lor_mod_two_pow, hbase0, Nat.zero_or, Nat.mod_eq_of_lt (by omega)]
  refine ⟨hgen, by rw [hgen]; exact hmod, ?_⟩
  intro k hk hfree hmin
  have hhm : 4294967295 - (2 ^ 32 - 2 ^ e) = 2 ^ e - 1 := by
    have hpow : (2 : Nat) ^ 32 = 4294967296 := by norm_num
    rw [hpow]
    omega
  have hband : generateCandidateIP nid baseIP (2 ^ 32 - 2 ^ e) offset &&& (2 ^ e - 1)
      = (lo24 nid + offset) % 16777216 % (2 ^ e - 2) + 1 := by
    rw [land_two_pow_sub_one, hgen, hmod]
  simp only [findNextAvailableIP, hhm, hmx, hband]
  rw [if_neg (by omega)]
  exact findLoop_first_free used (baseIP &&& (2 ^ 32 - 2 ^ e)) (2 ^ e - 1) (2 ^ e - 2)
    ((lo24 nid + offset) % 16777216 % (2 ^ e - 2) + 1) k hk hfree hmin

/-- Concrete instance of `claim6_candidate_spec` in 10.0.0.0/24
(`e = 8`): from the all-zero Node ID at offset 0 the seed is host 1;
with 10.0.0.1 in `UsedIPSet` the scan settles on 10.0.0.2, the first
free address of the scan sequence. -/
theorem claim6_witness :
    findNextAvailableIP [167772161] 167772160 4294967040
        (generateCandidateIP nidZ 167772160 4294967040 0)
      = scanAddr (167772160 &&& 4294967040) (2 ^ 8 - 1)
          ((lo24 nidZ + 0) % 16777216 % (2 ^ 8 - 2) + 1) 1 :=
  (claim6_candidate_spec nidZ 167772160 0 [167772161] 8 4294967040 (by norm_num)
      (by norm_num) (by norm_num)).2.2 1 (by norm_num) (by decide)
    (by
      intro j hj
      have hj0 : j = 0 := by omega
      rw [hj0]
      decide)

end ConnectTool
